import Mathlib

/-!
# Package `logger` (tkandal/logger, `logger.go`)

A shallow embedding of the configuration builder of `logger.go` and the
properties of its option mechanism and of its factory method `Sugar`.

Conventions of the embedding.

* The Go struct `Logger` is a Lean structure with the same seven fields.  Go
  `int` fields are `Int` (the code only stores and passes them on, it does no
  arithmetic with them) and the Go `string` is a `String`.
* `*Logger` is mutated in place by the options; here every option call takes
  the configuration and returns the updated configuration together with the
  option it returns (explicit state passing).
* `LogOption` is the recursive function type `func(*Logger) LogOption`.  The
  closures that the seven option constructors of the package build are
  represented by their code and their captured variable (one constructor of
  the inductive type per closure); `LogOption.call` runs the closure body.
* The two constructors of package `ntnuzap` and the method `Sugar` of
  `*zap.Logger` live outside the package.  They are parameters of the
  embedding (`Backend`); every call made to them is recorded in a trace.
-/

namespace zapcore

/-- Modelled from the spec: the level type `zapcore.Level` is declared outside
this repository (go.uber.org/zap/zapcore), the spec describes it as
`enum{Debug,Info,Warn,Error,...}` whose unset value is Info-equivalent.  It is
a signed integer type; the configuration only stores its values. -/
abbrev Level := Int

/-- Modelled from the spec: `zapcore.InfoLevel`, the Info level; it is the zero
value of the level type. -/
def InfoLevel : Level := 0

end zapcore

namespace logger

/-- The struct `Logger` (logger.go, lines 14-22). -/
structure Logger where
  logUTC : Bool
  logFile : String
  maxSize : Int
  maxBack : Int
  maxDays : Int
  development : Bool
  level : zapcore.Level
  deriving DecidableEq

/-- The values of type `LogOption` that the package constructs: the closure
returned by each of the seven option constructors, with its captured
argument (logger.go, lines 44-104). -/
inductive LogOption where
  | LogUTC (b : Bool)
  | LogFile (lf : String)
  | MaxSize (d : Int)
  | MaxBack (d : Int)
  | MaxDays (d : Int)
  | Development (b : Bool)
  | Level (level : zapcore.Level)
  deriving DecidableEq

/-- Calling an option on a configuration: the body of the closure.  It reads
the previous value of one field, overwrites the field with the captured
argument, and returns the option built from the previous value. -/
def LogOption.call : LogOption → Logger → Logger × LogOption
  | .LogUTC b, l =>
      let prev := l.logUTC
      ({ l with logUTC := b }, .LogUTC prev)
  | .LogFile lf, l =>
      let prev := l.logFile
      ({ l with logFile := lf }, .LogFile prev)
  | .MaxSize d, l =>
      let prev := l.maxSize
      ({ l with maxSize := d }, .MaxSize prev)
  | .MaxBack d, l =>
      let prev := l.maxBack
      ({ l with maxBack := d }, .MaxBack prev)
  | .MaxDays d, l =>
      let prev := l.maxDays
      ({ l with maxDays := d }, .MaxDays prev)
  | .Development b, l =>
      let prev := l.development
      ({ l with development := b }, .Development prev)
  | .Level level, l =>
      let prev := l.level
      ({ l with level := level }, .Level prev)

/-- The loop `for _, opt := range opts { opt(l) }` of `NewLogger`: the options
are called in order and the options they return are dropped. -/
def applyOpts (l : Logger) (opts : List LogOption) : Logger :=
  opts.foldl (fun acc opt => (opt.call acc).1) l

/-- The struct literal of `NewLogger` (lines 30-36); the fields it does not
name, `logFile` and `level`, get the zero value of their type. -/
def defaultLogger : Logger :=
  { logUTC := true
    logFile := ""
    maxSize := 128
    maxBack := 3
    maxDays := 28
    development := false
    level := 0 }

/-- The function `NewLogger` (logger.go, lines 29-42). -/
def NewLogger (opts : List LogOption) : Logger :=
  applyOpts defaultLogger opts

/-- Calling the options in order on a configuration and keeping the options
they return, in the order of the calls. -/
def applyCollect : Logger → List LogOption → Logger × List LogOption
  | l, [] => (l, [])
  | l, opt :: opts =>
      let r := opt.call l
      let rest := applyCollect r.1 opts
      (rest.1, r.2 :: rest.2)

/-- The fields of the configuration. -/
inductive Field where
  | logUTC | logFile | maxSize | maxBack | maxDays | development | level
  deriving DecidableEq

/-- The field that the body of an option assigns. -/
def LogOption.target : LogOption → Field
  | .LogUTC _ => .logUTC
  | .LogFile _ => .logFile
  | .MaxSize _ => .maxSize
  | .MaxBack _ => .maxBack
  | .MaxDays _ => .maxDays
  | .Development _ => .development
  | .Level _ => .level

/-- The argument that an option stores in `logUTC`, when it targets it. -/
def LogOption.logUTCArg : LogOption → Option Bool
  | .LogUTC b => some b
  | _ => none

/-- The argument that an option stores in `logFile`, when it targets it. -/
def LogOption.logFileArg : LogOption → Option String
  | .LogFile lf => some lf
  | _ => none

/-- The argument that an option stores in `maxSize`, when it targets it. -/
def LogOption.maxSizeArg : LogOption → Option Int
  | .MaxSize d => some d
  | _ => none

/-- The argument that an option stores in `maxBack`, when it targets it. -/
def LogOption.maxBackArg : LogOption → Option Int
  | .MaxBack d => some d
  | _ => none

/-- The argument that an option stores in `maxDays`, when it targets it. -/
def LogOption.maxDaysArg : LogOption → Option Int
  | .MaxDays d => some d
  | _ => none

/-- The argument that an option stores in `development`, when it targets it. -/
def LogOption.developmentArg : LogOption → Option Bool
  | .Development b => some b
  | _ => none

/-- The argument that an option stores in `level`, when it targets it. -/
def LogOption.levelArg : LogOption → Option zapcore.Level
  | .Level v => some v
  | _ => none

/-- The specification of a field after a list of options, in the words of the
spec ("later options for the same field win"): the argument of the last
option of the list that targets the field, and the default when no option of
the list targets it. -/
def lastArgOr {α : Type} (sel : LogOption → Option α) (dflt : α)
    (opts : List LogOption) : α :=
  ((opts.filterMap sel).getLast?).getD dflt

/-- The configuration `l` has the seven given field values. -/
def Logger.hasFields (l : Logger) (logUTC : Bool) (logFile : String)
    (maxSize maxBack maxDays : Int) (development : Bool)
    (level : zapcore.Level) : Prop :=
  l.logUTC = logUTC ∧ l.logFile = logFile ∧ l.maxSize = maxSize ∧
  l.maxBack = maxBack ∧ l.maxDays = maxDays ∧ l.development = development ∧
  l.level = level

/-- One call to the logging backend, with its arguments. -/
inductive Call where
  | NTNULumberjack (filename : String) (maxSize maxBackups maxAge : Int) (utc : Bool)
  | NTNUZap (files : List String) (level : zapcore.Level) (development utc : Bool)
  deriving DecidableEq

/-- The code outside the package that `Sugar` calls.  `Zap` stands for the
values of `*zap.Logger`, `Sug` for the sugared loggers and `Err` for the
non-nil values of `error`; a constructor returns the Go pair
`(*zap.Logger, error)`, where `none` is the nil error.  `Sugar` is the method
`(*zap.Logger).Sugar`, which returns the address of a new sugared logger. -/
structure Backend (Zap Sug Err : Type) where
  NTNULumberjack : String → Int → Int → Int → Bool → Zap × Option Err
  NTNUZap : List String → zapcore.Level → Bool → Bool → Zap × Option Err
  Sugar : Zap → Sug

/-- The call `ntnuzap.NTNULumberjack(...)`: the backend's answer, and the trace
extended by the call. -/
def callNTNULumberjack {Zap Sug Err : Type} (be : Backend Zap Sug Err)
    (filename : String) (maxSize maxBackups maxAge : Int) (utc : Bool)
    (tr : List Call) : (Zap × Option Err) × List Call :=
  (be.NTNULumberjack filename maxSize maxBackups maxAge utc,
    tr ++ [Call.NTNULumberjack filename maxSize maxBackups maxAge utc])

/-- The call `ntnuzap.NTNUZap(...)`: the backend's answer, and the trace
extended by the call. -/
def callNTNUZap {Zap Sug Err : Type} (be : Backend Zap Sug Err)
    (files : List String) (level : zapcore.Level) (development utc : Bool)
    (tr : List Call) : (Zap × Option Err) × List Call :=
  (be.NTNUZap files level development utc,
    tr ++ [Call.NTNUZap files level development utc])

/-- What `Sugar` returns: the Go pair `(*zap.SugaredLogger, error)`, where
`none` is nil, and the trace of the backend calls made so far. -/
structure SugarResult (Sug Err : Type) where
  handle : Option Sug
  err : Option Err
  calls : List Call

/-- The method `(*Logger).Sugar` (logger.go, lines 107-121), run with the trace
`tr` of the backend calls made before it.  The test `len(l.logFile) > 0` of
the Go string is the test that the string has at least one character. -/
def Logger.Sugar {Zap Sug Err : Type} (be : Backend Zap Sug Err) (l : Logger)
    (tr : List Call) : SugarResult Sug Err :=
  if l.logFile.length > 0 then
    let r := callNTNULumberjack be l.logFile l.maxSize l.maxBack l.maxDays l.logUTC tr
    match r.1.2 with
    | some err => { handle := none, err := some err, calls := r.2 }
    | none => { handle := some (be.Sugar r.1.1), err := none, calls := r.2 }
  else
    let files := ["stdout"]
    let r := callNTNUZap be files l.level l.development l.logUTC tr
    match r.1.2 with
    | some err => { handle := none, err := some err, calls := r.2 }
    | none => { handle := some (be.Sugar r.1.1), err := none, calls := r.2 }

/-- A backend over small concrete types, for evaluating `Sugar`: a logger is
the call that made it, a sugared logger wraps it, an error is a message.  The
rotating-file constructor fails on the path "/proc/denied.log" and the console
constructor fails on levels outside `-1 .. 5`. -/
def sampleBackend : Backend Call Call String where
  NTNULumberjack := fun filename maxSize maxBackups maxAge utc =>
    if filename = "/proc/denied.log" then
      (Call.NTNULumberjack "" 0 0 0 false, some "open /proc/denied.log: permission denied")
    else
      (Call.NTNULumberjack filename maxSize maxBackups maxAge utc, none)
  NTNUZap := fun files level development utc =>
    if level < -1 ∨ 5 < level then
      (Call.NTNUZap [] 0 false false, some "unrecognized level")
    else
      (Call.NTNUZap files level development utc, none)
  Sugar := fun z => z

/-! ## Helper lemmas -/

theorem string_length_pos_iff (s : String) : s.length > 0 ↔ s ≠ "" := by
  cases s with
  | mk data =>
    cases data with
    | nil => simp [String.length]
    | cons a as =>
      simp only [String.length, List.length_cons, gt_iff_lt, Nat.succ_pos, true_iff]
      intro h
      exact absurd (congrArg String.data h) (by simp)

theorem call_call_snd (o : LogOption) (c : Logger) :
    ((o.call c).2.call (o.call c).1).1 = c := by
  cases o <;> rfl

theorem applyOpts_nil (l : Logger) : applyOpts l [] = l := rfl

theorem applyOpts_cons (l : Logger) (o : LogOption) (opts : List LogOption) :
    applyOpts l (o :: opts) = applyOpts (o.call l).1 opts := rfl

theorem applyOpts_append (l : Logger) (xs ys : List LogOption) :
    applyOpts l (xs ++ ys) = applyOpts (applyOpts l xs) ys := by
  simp [applyOpts, List.foldl_append]

theorem applyCollect_fst (c : Logger) (opts : List LogOption) :
    (applyCollect c opts).1 = applyOpts c opts := by
  induction opts generalizing c with
  | nil => rfl
  | cons o opts ih => simp only [applyCollect, applyOpts_cons, ih]

theorem applyCollect_undo (c : Logger) (opts : List LogOption) :
    applyOpts (applyCollect c opts).1 (applyCollect c opts).2.reverse = c := by
  induction opts generalizing c with
  | nil => rfl
  | cons o opts ih =>
    simp only [applyCollect, List.reverse_cons, applyOpts_append, ih]
    exact call_call_snd o c

theorem lastArgOr_cons {α : Type} (sel : LogOption → Option α) (dflt : α)
    (o : LogOption) (opts : List LogOption) :
    lastArgOr sel dflt (o :: opts) = lastArgOr sel ((sel o).getD dflt) opts := by
  unfold lastArgOr
  cases h : sel o with
  | none => simp [List.filterMap_cons, h]
  | some a =>
    simp only [List.filterMap_cons, h, Option.getD_some]
    cases hl : (List.filterMap sel opts) with
    | nil => simp
    | cons b bs => simp [List.getLast?_cons_cons, List.getLast?_eq_getLast _ (List.cons_ne_nil b bs)]

theorem applyOpts_field {α : Type} (get : Logger → α) (sel : LogOption → Option α)
    (h : ∀ o c, get (o.call c).1 = (sel o).getD (get c)) :
    ∀ (opts : List LogOption) (c : Logger),
      get (applyOpts c opts) = lastArgOr sel (get c) opts := by
  intro opts
  induction opts with
  | nil => intro c; rfl
  | cons o opts ih =>
    intro c
    rw [applyOpts_cons, ih, h, lastArgOr_cons]

theorem applyOpts_logUTC (opts : List LogOption) (c : Logger) :
    (applyOpts c opts).logUTC = lastArgOr LogOption.logUTCArg c.logUTC opts :=
  applyOpts_field Logger.logUTC LogOption.logUTCArg
    (fun o c => by cases o <;> rfl) opts c

theorem applyOpts_logFile (opts : List LogOption) (c : Logger) :
    (applyOpts c opts).logFile = lastArgOr LogOption.logFileArg c.logFile opts :=
  applyOpts_field Logger.logFile LogOption.logFileArg
    (fun o c => by cases o <;> rfl) opts c

theorem applyOpts_maxSize (opts : List LogOption) (c : Logger) :
    (applyOpts c opts).maxSize = lastArgOr LogOption.maxSizeArg c.maxSize opts :=
  applyOpts_field Logger.maxSize LogOption.maxSizeArg
    (fun o c => by cases o <;> rfl) opts c

theorem applyOpts_maxBack (opts : List LogOption) (c : Logger) :
    (applyOpts c opts).maxBack = lastArgOr LogOption.maxBackArg c.maxBack opts :=
  applyOpts_field Logger.maxBack LogOption.maxBackArg
    (fun o c => by cases o <;> rfl) opts c

theorem applyOpts_maxDays (opts : List LogOption) (c : Logger) :
    (applyOpts c opts).maxDays = lastArgOr LogOption.maxDaysArg c.maxDays opts :=
  applyOpts_field Logger.maxDays LogOption.maxDaysArg
    (fun o c => by cases o <;> rfl) opts c

theorem applyOpts_development (opts : List LogOption) (c : Logger) :
    (applyOpts c opts).development
      = lastArgOr LogOption.developmentArg c.development opts :=
  applyOpts_field Logger.development LogOption.developmentArg
    (fun o c => by cases o <;> rfl) opts c

theorem applyOpts_level (opts : List LogOption) (c : Logger) :
    (applyOpts c opts).level = lastArgOr LogOption.levelArg c.level opts :=
  applyOpts_field Logger.level LogOption.levelArg
    (fun o c => by cases o <;> rfl) opts c

theorem filterMap_of_target {α : Type} (sel : LogOption → Option α) (f : Field)
    (hsel : ∀ o, o.target ≠ f → sel o = none) (l : List LogOption) :
    l.filterMap sel = (l.filter (fun o => decide (o.target = f))).filterMap sel := by
  induction l with
  | nil => rfl
  | cons o l ih =>
    by_cases h : o.target = f
    · simp only [List.filterMap_cons, List.filter_cons, h, decide_True, if_true, ih]
    · simp only [List.filterMap_cons, List.filter_cons, h, decide_False, hsel o h, ih]
      simp

theorem lastArgOr_congr {α : Type} (sel : LogOption → Option α) (f : Field)
    (hsel : ∀ o, o.target ≠ f → sel o = none) (dflt : α) (l1 l2 : List LogOption)
    (h : l1.filter (fun o => decide (o.target = f))
       = l2.filter (fun o => decide (o.target = f))) :
    lastArgOr sel dflt l1 = lastArgOr sel dflt l2 := by
  unfold lastArgOr
  rw [filterMap_of_target sel f hsel l1, filterMap_of_target sel f hsel l2, h]

theorem Logger.eq_of_fields (a b : Logger) (h1 : a.logUTC = b.logUTC)
    (h2 : a.logFile = b.logFile) (h3 : a.maxSize = b.maxSize)
    (h4 : a.maxBack = b.maxBack) (h5 : a.maxDays = b.maxDays)
    (h6 : a.development = b.development) (h7 : a.level = b.level) : a = b := by
  cases a; cases b; simp_all

theorem applyOpts_congr (c : Logger) (l1 l2 : List LogOption)
    (h : ∀ f : Field, l1.filter (fun o => decide (o.target = f))
       = l2.filter (fun o => decide (o.target = f))) :
    applyOpts c l1 = applyOpts c l2 := by
  apply Logger.eq_of_fields
  · rw [applyOpts_logUTC, applyOpts_logUTC]
    exact lastArgOr_congr _ .logUTC (fun o ho => by cases o <;> first | rfl | exact absurd rfl ho)
      _ _ _ (h _)
  · rw [applyOpts_logFile, applyOpts_logFile]
    exact lastArgOr_congr _ .logFile (fun o ho => by cases o <;> first | rfl | exact absurd rfl ho)
      _ _ _ (h _)
  · rw [applyOpts_maxSize, applyOpts_maxSize]
    exact lastArgOr_congr _ .maxSize (fun o ho => by cases o <;> first | rfl | exact absurd rfl ho)
      _ _ _ (h _)
  · rw [applyOpts_maxBack, applyOpts_maxBack]
    exact lastArgOr_congr _ .maxBack (fun o ho => by cases o <;> first | rfl | exact absurd rfl ho)
      _ _ _ (h _)
  · rw [applyOpts_maxDays, applyOpts_maxDays]
    exact lastArgOr_congr _ .maxDays (fun o ho => by cases o <;> first | rfl | exact absurd rfl ho)
      _ _ _ (h _)
  · rw [applyOpts_development, applyOpts_development]
    exact lastArgOr_congr _ .development
      (fun o ho => by cases o <;> first | rfl | exact absurd rfl ho) _ _ _ (h _)
  · rw [applyOpts_level, applyOpts_level]
    exact lastArgOr_congr _ .level (fun o ho => by cases o <;> first | rfl | exact absurd rfl ho)
      _ _ _ (h _)

theorem call_comm (c : Logger) (o1 o2 : LogOption) (h : o1.target ≠ o2.target) :
    (o2.call (o1.call c).1).1 = (o1.call (o2.call c).1).1 := by
  cases o1 <;> cases o2 <;> first | rfl | exact absurd rfl h

theorem Sugar_file {Zap Sug Err : Type} (be : Backend Zap Sug Err) (c : Logger)
    (tr : List Call) (h : c.logFile ≠ "") :
    c.Sugar be tr =
      { handle := match (be.NTNULumberjack c.logFile c.maxSize c.maxBack c.maxDays
                    c.logUTC).2 with
          | some _ => none
          | none => some (be.Sugar (be.NTNULumberjack c.logFile c.maxSize c.maxBack
                      c.maxDays c.logUTC).1)
        err := (be.NTNULumberjack c.logFile c.maxSize c.maxBack c.maxDays c.logUTC).2
        calls := tr ++ [Call.NTNULumberjack c.logFile c.maxSize c.maxBack c.maxDays
                   c.logUTC] } := by
  have hl : c.logFile.length > 0 := (string_length_pos_iff _).2 h
  simp only [Logger.Sugar, hl, if_true, callNTNULumberjack]
  cases (be.NTNULumberjack c.logFile c.maxSize c.maxBack c.maxDays c.logUTC).2 <;> rfl

theorem Sugar_console {Zap Sug Err : Type} (be : Backend Zap Sug Err) (c : Logger)
    (tr : List Call) (h : c.logFile = "") :
    c.Sugar be tr =
      { handle := match (be.NTNUZap ["stdout"] c.level c.development c.logUTC).2 with
          | some _ => none
          | none => some (be.Sugar (be.NTNUZap ["stdout"] c.level c.development
                      c.logUTC).1)
        err := (be.NTNUZap ["stdout"] c.level c.development c.logUTC).2
        calls := tr ++ [Call.NTNUZap ["stdout"] c.level c.development c.logUTC] } := by
  have hl : ¬ c.logFile.length > 0 := by
    rw [string_length_pos_iff]; exact fun hne => hne h
  simp only [Logger.Sugar, hl, if_false, callNTNUZap]
  cases (be.NTNUZap ["stdout"] c.level c.development c.logUTC).2 <;> rfl

/-! ## Theorems -/

/-- C1: `NewLogger` called with no options returns the configuration with
`logUTC = true`, `maxSize = 128`, `maxBack = 3`, `maxDays = 28`,
`development = false`, `logFile = ""` and `level` the zero value of the level
type, which is the Info level. -/
theorem NewLogger_defaults :
    (NewLogger []).logUTC = true ∧ (NewLogger []).maxSize = 128 ∧
    (NewLogger []).maxBack = 3 ∧ (NewLogger []).maxDays = 28 ∧
    (NewLogger []).development = false ∧ (NewLogger []).logFile = "" ∧
    (NewLogger []).level = 0 ∧ (NewLogger []).level = zapcore.InfoLevel := by
  refine ⟨rfl, rfl, rfl, rfl, rfl, rfl, rfl, rfl⟩

/-- C2: for every configuration `c` and every option `o` built by one of the
seven option constructors, calling `o` on `c` and then calling the option that
`o` returned leaves the field that `o` targets equal to its value in `c`, and
the whole configuration equal to `c`. -/
theorem option_then_reverter_restores (c : Logger) (o : LogOption) :
    ((o.call c).2.call (o.call c).1).1 = c ∧
    (o.call c).2.target = o.target ∧
    (match o.target with
      | .logUTC => ((o.call c).2.call (o.call c).1).1.logUTC = c.logUTC
      | .logFile => ((o.call c).2.call (o.call c).1).1.logFile = c.logFile
      | .maxSize => ((o.call c).2.call (o.call c).1).1.maxSize = c.maxSize
      | .maxBack => ((o.call c).2.call (o.call c).1).1.maxBack = c.maxBack
      | .maxDays => ((o.call c).2.call (o.call c).1).1.maxDays = c.maxDays
      | .development => ((o.call c).2.call (o.call c).1).1.development = c.development
      | .level => ((o.call c).2.call (o.call c).1).1.level = c.level) := by
  cases o <;> exact ⟨rfl, rfl, rfl⟩

/-- C8: each option overwrites exactly one field: after the call the targeted
field is the argument of the option and the other six fields have their
values from `c`, for each of the seven option constructors and every
argument. -/
theorem option_overwrites_one_field (c : Logger) :
    (∀ b, ((LogOption.LogUTC b).call c).1.hasFields
      b c.logFile c.maxSize c.maxBack c.maxDays c.development c.level) ∧
    (∀ lf, ((LogOption.LogFile lf).call c).1.hasFields
      c.logUTC lf c.maxSize c.maxBack c.maxDays c.development c.level) ∧
    (∀ d, ((LogOption.MaxSize d).call c).1.hasFields
      c.logUTC c.logFile d c.maxBack c.maxDays c.development c.level) ∧
    (∀ d, ((LogOption.MaxBack d).call c).1.hasFields
      c.logUTC c.logFile c.maxSize d c.maxDays c.development c.level) ∧
    (∀ d, ((LogOption.MaxDays d).call c).1.hasFields
      c.logUTC c.logFile c.maxSize c.maxBack d c.development c.level) ∧
    (∀ b, ((LogOption.Development b).call c).1.hasFields
      c.logUTC c.logFile c.maxSize c.maxBack c.maxDays b c.level) ∧
    (∀ v, ((LogOption.Level v).call c).1.hasFields
      c.logUTC c.logFile c.maxSize c.maxBack c.maxDays c.development v) := by
  refine ⟨fun _ => ?_, fun _ => ?_, fun _ => ?_, fun _ => ?_, fun _ => ?_,
    fun _ => ?_, fun _ => ?_⟩ <;> exact ⟨rfl, rfl, rfl, rfl, rfl, rfl, rfl⟩

/-- C3: for every configuration `c` and every finite list of options, calling
the options on `c` in order while collecting the options they return, and then
calling the collected options in reverse order, gives back exactly `c`. -/
theorem reverters_in_reverse_restore (c : Logger) (opts : List LogOption) :
    (applyCollect c opts).1 = applyOpts c opts ∧
    (applyCollect c opts).2.length = opts.length ∧
    applyOpts (applyOpts c opts) (applyCollect c opts).2.reverse = c := by
  refine ⟨applyCollect_fst c opts, ?_, ?_⟩
  · induction opts generalizing c with
    | nil => rfl
    | cons o opts ih => simp [applyCollect, ih]
  · have h := applyCollect_undo c opts
    rwa [applyCollect_fst] at h

/-- C4: for every list of options, each field of `NewLogger opts` is the
argument of the last option of the list that targets the field, or the default
of the field when no option targets it; `NewLogger [MaxSize 10, MaxSize 20]`
has `maxSize = 20`; and the arguments are stored unchanged, negative integers
and any level value included. -/
theorem NewLogger_last_option_wins (opts : List LogOption) :
    ((NewLogger opts).logUTC = lastArgOr LogOption.logUTCArg true opts ∧
     (NewLogger opts).logFile = lastArgOr LogOption.logFileArg "" opts ∧
     (NewLogger opts).maxSize = lastArgOr LogOption.maxSizeArg 128 opts ∧
     (NewLogger opts).maxBack = lastArgOr LogOption.maxBackArg 3 opts ∧
     (NewLogger opts).maxDays = lastArgOr LogOption.maxDaysArg 28 opts ∧
     (NewLogger opts).development = lastArgOr LogOption.developmentArg false opts ∧
     (NewLogger opts).level = lastArgOr LogOption.levelArg 0 opts) ∧
    (NewLogger [LogOption.MaxSize 10, LogOption.MaxSize 20]).maxSize = 20 ∧
    (∀ (c : Logger) (d : Int),
      ((LogOption.MaxSize d).call c).1.maxSize = d ∧
      ((LogOption.MaxBack d).call c).1.maxBack = d ∧
      ((LogOption.MaxDays d).call c).1.maxDays = d ∧
      (NewLogger (opts ++ [LogOption.MaxSize d])).maxSize = d ∧
      (NewLogger (opts ++ [LogOption.MaxBack d])).maxBack = d ∧
      (NewLogger (opts ++ [LogOption.MaxDays d])).maxDays = d) ∧
    (∀ (c : Logger) (v : zapcore.Level),
      ((LogOption.Level v).call c).1.level = v ∧
      (NewLogger (opts ++ [LogOption.Level v])).level = v) := by
  refine ⟨⟨applyOpts_logUTC opts _, applyOpts_logFile opts _, applyOpts_maxSize opts _,
    applyOpts_maxBack opts _, applyOpts_maxDays opts _, applyOpts_development opts _,
    applyOpts_level opts _⟩, rfl, fun c d => ⟨rfl, rfl, rfl, ?_, ?_, ?_⟩,
    fun c v => ⟨rfl, ?_⟩⟩ <;>
  simp only [NewLogger, applyOpts_append] <;> rfl

/-- C5: option application is a function of the configuration and the option,
and the order matters only between options for the same field: two options
that target different fields commute on every configuration, and two option
lists that are permutations of each other and keep the relative order of the
options of each field give the same configuration, from any start and so for
`NewLogger`. -/
theorem option_order_matters_only_within_a_field :
    (∀ (c : Logger) (o1 o2 : LogOption), o1.target ≠ o2.target →
      (o2.call (o1.call c).1).1 = (o1.call (o2.call c).1).1 ∧
      applyOpts c [o1, o2] = applyOpts c [o2, o1] ∧
      NewLogger [o1, o2] = NewLogger [o2, o1]) ∧
    (∀ (l1 l2 : List LogOption), l1.Perm l2 →
      (∀ f : Field, l1.filter (fun o => decide (o.target = f))
        = l2.filter (fun o => decide (o.target = f))) →
      (∀ c : Logger, applyOpts c l1 = applyOpts c l2) ∧ NewLogger l1 = NewLogger l2) := by
  refine ⟨fun c o1 o2 h => ⟨call_comm c o1 o2 h, call_comm c o1 o2 h,
    call_comm _ o1 o2 h⟩, fun l1 l2 _ h => ⟨fun c => applyOpts_congr c l1 l2 h,
    applyOpts_congr _ l1 l2 h⟩⟩

/-- Witness of C5: `MaxSize 10` and `LogUTC false` commute on the default
configuration, and the lists `[MaxSize 10, LogUTC false, MaxSize 20]` and
`[LogUTC false, MaxSize 10, MaxSize 20]` give the same configuration. -/
theorem option_order_matters_only_within_a_field_witness :
    (LogOption.MaxSize 10).target ≠ (LogOption.LogUTC false).target ∧
    NewLogger [LogOption.MaxSize 10, LogOption.LogUTC false]
      = NewLogger [LogOption.LogUTC false, LogOption.MaxSize 10] ∧
    NewLogger [LogOption.MaxSize 10, LogOption.LogUTC false, LogOption.MaxSize 20]
      = NewLogger [LogOption.LogUTC false, LogOption.MaxSize 10, LogOption.MaxSize 20] :=
  ⟨by decide,
   (option_order_matters_only_within_a_field.1 defaultLogger (LogOption.MaxSize 10)
      (LogOption.LogUTC false) (by decide)).2.2,
   (option_order_matters_only_within_a_field.2
      [LogOption.MaxSize 10, LogOption.LogUTC false, LogOption.MaxSize 20]
      [LogOption.LogUTC false, LogOption.MaxSize 10, LogOption.MaxSize 20]
      (List.Perm.swap _ _ _) (fun f => by cases f <;> rfl)).2⟩

/-- C6: for every configuration `c`, `Sugar` makes exactly one backend call,
chosen by `logFile` alone: with a non-empty `logFile` the one call is the
rotating-file constructor on `(logFile, maxSize, maxBack, maxDays, logUTC)`,
with an empty `logFile` it is the console constructor on
`(["stdout"], level, development, logUTC)`; the other constructor is not
called. -/
theorem Sugar_makes_one_backend_call {Zap Sug Err : Type} (be : Backend Zap Sug Err)
    (c : Logger) (tr : List Call) :
    (c.logFile ≠ "" →
      (c.Sugar be tr).calls = tr ++ [Call.NTNULumberjack c.logFile c.maxSize c.maxBack
        c.maxDays c.logUTC] ∧
      (c.Sugar be []).calls = [Call.NTNULumberjack c.logFile c.maxSize c.maxBack
        c.maxDays c.logUTC]) ∧
    (c.logFile = "" →
      (c.Sugar be tr).calls = tr ++ [Call.NTNUZap ["stdout"] c.level c.development
        c.logUTC] ∧
      (c.Sugar be []).calls = [Call.NTNUZap ["stdout"] c.level c.development
        c.logUTC]) ∧
    (c.Sugar be tr).calls.length = tr.length + 1 := by
  refine ⟨fun h => ?_, fun h => ?_, ?_⟩
  · rw [Sugar_file be c tr h, Sugar_file be c [] h]; exact ⟨rfl, rfl⟩
  · rw [Sugar_console be c tr h, Sugar_console be c [] h]; exact ⟨rfl, rfl⟩
  · by_cases h : c.logFile = ""
    · rw [Sugar_console be c tr h]; simp
    · rw [Sugar_file be c tr h]; simp

/-- Witness of C6: the configuration of `NewLogger [LogFile "/var/log/app.log"]`
makes the one rotating-file call, the default configuration the one console
call. -/
theorem Sugar_makes_one_backend_call_witness :
    (NewLogger [LogOption.LogFile "/var/log/app.log"]).logFile ≠ "" ∧
    ((NewLogger [LogOption.LogFile "/var/log/app.log"]).Sugar sampleBackend []).calls
      = [Call.NTNULumberjack "/var/log/app.log" 128 3 28 true] ∧
    (NewLogger []).logFile = "" ∧
    ((NewLogger []).Sugar sampleBackend []).calls
      = [Call.NTNUZap ["stdout"] 0 false true] :=
  ⟨by decide,
   ((Sugar_makes_one_backend_call sampleBackend
      (NewLogger [LogOption.LogFile "/var/log/app.log"]) []).1 (by decide)).2,
   rfl,
   ((Sugar_makes_one_backend_call sampleBackend (NewLogger []) []).2.1 rfl).2⟩

/-- C7: `Sugar` fails exactly when the backend constructor it selected fails.
When that constructor returns an error, `Sugar` returns the same error and no
handle, having made that one call only (no retry, no call of the other
constructor); when it returns no error, `Sugar` returns a handle, the sugared
form of the backend's logger, and no error. -/
theorem Sugar_fails_iff_backend_fails {Zap Sug Err : Type} (be : Backend Zap Sug Err)
    (c : Logger) (tr : List Call) :
    (c.logFile ≠ "" →
      (c.Sugar be tr).err
        = (be.NTNULumberjack c.logFile c.maxSize c.maxBack c.maxDays c.logUTC).2 ∧
      (∀ e, (be.NTNULumberjack c.logFile c.maxSize c.maxBack c.maxDays c.logUTC).2
          = some e →
        (c.Sugar be tr).handle = none ∧ (c.Sugar be tr).err = some e ∧
        (c.Sugar be tr).calls = tr ++ [Call.NTNULumberjack c.logFile c.maxSize c.maxBack
          c.maxDays c.logUTC]) ∧
      ((be.NTNULumberjack c.logFile c.maxSize c.maxBack c.maxDays c.logUTC).2 = none →
        (c.Sugar be tr).handle = some (be.Sugar (be.NTNULumberjack c.logFile c.maxSize
          c.maxBack c.maxDays c.logUTC).1) ∧
        (c.Sugar be tr).err = none)) ∧
    (c.logFile = "" →
      (c.Sugar be tr).err = (be.NTNUZap ["stdout"] c.level c.development c.logUTC).2 ∧
      (∀ e, (be.NTNUZap ["stdout"] c.level c.development c.logUTC).2 = some e →
        (c.Sugar be tr).handle = none ∧ (c.Sugar be tr).err = some e ∧
        (c.Sugar be tr).calls = tr ++ [Call.NTNUZap ["stdout"] c.level c.development
          c.logUTC]) ∧
      ((be.NTNUZap ["stdout"] c.level c.development c.logUTC).2 = none →
        (c.Sugar be tr).handle = some (be.Sugar (be.NTNUZap ["stdout"] c.level
          c.development c.logUTC).1) ∧
        (c.Sugar be tr).err = none)) ∧
    ((c.Sugar be tr).handle.isSome = !(c.Sugar be tr).err.isSome) := by
  refine ⟨fun h => ?_, fun h => ?_, ?_⟩
  · rw [Sugar_file be c tr h]
    refine ⟨rfl, fun e he => ?_, fun he => ?_⟩
    · simp [he]
    · simp [he]
  · rw [Sugar_console be c tr h]
    refine ⟨rfl, fun e he => ?_, fun he => ?_⟩
    · simp [he]
    · simp [he]
  · by_cases h : c.logFile = ""
    · rw [Sugar_console be c tr h]
      cases (be.NTNUZap ["stdout"] c.level c.development c.logUTC).2 <;> rfl
    · rw [Sugar_file be c tr h]
      cases (be.NTNULumberjack c.logFile c.maxSize c.maxBack c.maxDays c.logUTC).2 <;> rfl

/-- Witness of C7: with the sample backend, the unwritable path
"/proc/denied.log" makes `Sugar` return the backend's error and no handle, and
the default console configuration makes it return a handle and no error. -/
theorem Sugar_fails_iff_backend_fails_witness :
    (((NewLogger [LogOption.LogFile "/proc/denied.log"]).Sugar sampleBackend []).handle
        = none ∧
      ((NewLogger [LogOption.LogFile "/proc/denied.log"]).Sugar sampleBackend []).err
        = some "open /proc/denied.log: permission denied" ∧
      ((NewLogger [LogOption.LogFile "/proc/denied.log"]).Sugar sampleBackend []).calls
        = [Call.NTNULumberjack "/proc/denied.log" 128 3 28 true]) ∧
    (((NewLogger []).Sugar sampleBackend []).handle
        = some (Call.NTNUZap ["stdout"] 0 false true) ∧
      ((NewLogger []).Sugar sampleBackend []).err = none) :=
  ⟨((Sugar_fails_iff_backend_fails sampleBackend
      (NewLogger [LogOption.LogFile "/proc/denied.log"]) []).1 (by decide)).2.1
      "open /proc/denied.log: permission denied" rfl,
   ((Sugar_fails_iff_backend_fails sampleBackend (NewLogger []) []).2.1 rfl).2.2 rfl⟩

/-- C10: with a non-empty `logFile`, what `Sugar` does and returns does not
depend on `level` and `development`: two configurations that agree on
`logFile`, `maxSize`, `maxBack`, `maxDays` and `logUTC` make the same backend
call and get the same result, so the options `Level` and `Development` have
no effect on it.  With an empty `logFile` it does not depend on `maxSize`,
`maxBack` and `maxDays`. -/
theorem Sugar_ignores_fields_of_other_branch {Zap Sug Err : Type}
    (be : Backend Zap Sug Err) (c1 c2 : Logger) (tr : List Call) :
    (c1.logFile ≠ "" → c1.logFile = c2.logFile → c1.maxSize = c2.maxSize →
      c1.maxBack = c2.maxBack → c1.maxDays = c2.maxDays → c1.logUTC = c2.logUTC →
      c1.Sugar be tr = c2.Sugar be tr) ∧
    (c1.logFile ≠ "" → ∀ (v : zapcore.Level) (b : Bool),
      ((LogOption.Level v).call c1).1.Sugar be tr = c1.Sugar be tr ∧
      ((LogOption.Development b).call c1).1.Sugar be tr = c1.Sugar be tr) ∧
    (c1.logFile = "" → c2.logFile = "" → c1.level = c2.level →
      c1.development = c2.development → c1.logUTC = c2.logUTC →
      c1.Sugar be tr = c2.Sugar be tr) ∧
    (c1.logFile = "" → ∀ d : Int,
      ((LogOption.MaxSize d).call c1).1.Sugar be tr = c1.Sugar be tr ∧
      ((LogOption.MaxBack d).call c1).1.Sugar be tr = c1.Sugar be tr ∧
      ((LogOption.MaxDays d).call c1).1.Sugar be tr = c1.Sugar be tr) := by
  refine ⟨fun h hf hs hb hd hu => ?_, fun h v b => ⟨?_, ?_⟩,
    fun h h2 hl hd hu => ?_, fun h d => ⟨?_, ?_, ?_⟩⟩
  · rw [Sugar_file be c1 tr h, Sugar_file be c2 tr (hf ▸ h), hf, hs, hb, hd, hu]
  · rw [Sugar_file be c1 tr h, Sugar_file be _ tr (show ((LogOption.Level v).call c1).1.logFile ≠ "" from h)]
    rfl
  · rw [Sugar_file be c1 tr h, Sugar_file be _ tr (show ((LogOption.Development b).call c1).1.logFile ≠ "" from h)]
    rfl
  · rw [Sugar_console be c1 tr h, Sugar_console be c2 tr h2, hl, hd, hu]
  · rw [Sugar_console be c1 tr h, Sugar_console be _ tr (show ((LogOption.MaxSize d).call c1).1.logFile = "" from h)]
    rfl
  · rw [Sugar_console be c1 tr h, Sugar_console be _ tr (show ((LogOption.MaxBack d).call c1).1.logFile = "" from h)]
    rfl
  · rw [Sugar_console be c1 tr h, Sugar_console be _ tr (show ((LogOption.MaxDays d).call c1).1.logFile = "" from h)]
    rfl

/-- Witness of C10: with the log file "/var/log/app.log", the configuration with
`Level (-1)` and `Development true` and the one without them give the same
result of `Sugar`; with no log file, the configuration with `MaxSize 1`,
`MaxBack 0`, `MaxDays (-7)` and the default one give the same result. -/
theorem Sugar_ignores_fields_of_other_branch_witness :
    (NewLogger [LogOption.LogFile "/var/log/app.log", LogOption.Level (-1),
        LogOption.Development true]).Sugar sampleBackend []
      = (NewLogger [LogOption.LogFile "/var/log/app.log"]).Sugar sampleBackend [] ∧
    (NewLogger [LogOption.MaxSize 1, LogOption.MaxBack 0,
        LogOption.MaxDays (-7)]).Sugar sampleBackend []
      = (NewLogger []).Sugar sampleBackend [] :=
  ⟨(Sugar_ignores_fields_of_other_branch sampleBackend
      (NewLogger [LogOption.LogFile "/var/log/app.log", LogOption.Level (-1),
        LogOption.Development true])
      (NewLogger [LogOption.LogFile "/var/log/app.log"]) []).1
      (by decide) rfl rfl rfl rfl rfl,
   (Sugar_ignores_fields_of_other_branch sampleBackend
      (NewLogger [LogOption.MaxSize 1, LogOption.MaxBack 0, LogOption.MaxDays (-7)])
      (NewLogger []) []).2.2.1 rfl rfl rfl rfl rfl⟩

end logger
